import Mathlib

/-!
Shallow embedding of `src/crates/bevy-inspector-egui/src/restricted_world_view.rs`.

The module provides `RestrictedWorldView`, a capability-scoped view into a
shared mutable world.  A view couples a world handle with two capability sets
(`Allowed<TypeId>` for resources, `Allowed<(Entity, TypeId)>` for components),
supports splitting a view into disjoint children, and checked accessors.

Modelling conventions:
- `TypeId`, `Entity`, `ComponentId` are modelled as `Nat`; resource and
  component contents as `Nat` values.
- Rust panics (`assert!`, `assert_ne!`, `assert_eq!`, `.expect(..)`) are
  modelled by returning `none` from an `Option`-valued function; recoverable
  `Result<_, Error>` values are modelled by `Except Error _`.
- `SmallVec` is modelled as `List`; `Vec::swap_remove` is modelled by
  `swapRemove` below.
- Methods taking `&mut self` (or `&self`) and handing out references are
  modelled in state-passing style: they return their result together with the
  view, whose capability fields they never reassign (as in the source).
- The world (an external collaborator) is modelled as association lists for
  its typed resource slots, its id registries, its by-id slots (value plus
  changed flag), and its entity list.  The deferred change-marking closures
  (`impl FnOnce()`) are modelled as `World → World` state transformers.
-/

abbrev TypeId := Nat

abbrev Entity := Nat

abbrev EntityComponent := Entity × TypeId

abbrev Value := Nat

abbrev ComponentId := Nat

/-- Mirror of `enum Error` in the source. -/
inductive Error where
  | NoAccessToResource (t : TypeId)
  | NoAccessToComponent (ec : EntityComponent)
  | ResourceDoesNotExist (t : TypeId)
  | ComponentDoesNotExist (ec : EntityComponent)
  | NoComponentId (t : TypeId)
  | NoTypeRegistration (t : TypeId)
  | NoTypeData (t : TypeId) (data : String)
deriving DecidableEq

/-- Mirror of `enum Allowed<T>`: a capability set, either an explicit
allow-list or an explicit forbid-list. -/
inductive Allowed (T : Type) where
  | AllowList (list : List T)
  | ForbidList (list : List T)
deriving DecidableEq

/-- Model of `Vec::swap_remove(i)`: replaces the element at index `i` with the
last element and removes the last slot.  All call sites in the source call it
with a valid index into a nonempty list. -/
def swapRemove {T : Type} (l : List T) (i : Nat) : List T :=
  match l.getLast? with
  | none => l
  | some last => (l.set i last).dropLast

namespace Allowed

variable {T : Type} [DecidableEq T]

/-- Mirror of `Allowed::allow_just`. -/
def allow_just (value : T) : Allowed T :=
  Allowed.AllowList [value]

/-- Mirror of `Allowed::allow` (collects the iterator into an allow-list). -/
def allow (values : List T) : Allowed T :=
  Allowed.AllowList values

/-- Mirror of `Allowed::everything`. -/
def everything : Allowed T :=
  Allowed.ForbidList []

/-- Mirror of `Allowed::nothing`. -/
def nothing : Allowed T :=
  Allowed.AllowList []

/-- Mirror of `Allowed::allows_access_to`: membership in an allow-list,
non-membership in a forbid-list. -/
def allows_access_to (a : Allowed T) (value : T) : Bool :=
  match a with
  | Allowed.AllowList list => decide (value ∈ list)
  | Allowed.ForbidList list => !decide (value ∈ list)

/-- Mirror of `Allowed::without`.  On an allow-list, looks up the first
position of `value` (the `.expect` panic on a missing value is modelled by
`none`) and removes that single occurrence by `swap_remove`; on a forbid-list,
appends `value`. -/
def without (a : Allowed T) (value : T) : Option (Allowed T) :=
  match a with
  | Allowed.AllowList list =>
    if _h : value ∈ list then
      some (Allowed.AllowList (swapRemove list (list.indexOf value)))
    else
      none
  | Allowed.ForbidList list =>
    some (Allowed.ForbidList (list ++ [value]))

/-- The loop inside `Allowed::without_many` for the allow-list arm, verbatim:
for each value it looks up the position in the ORIGINAL list (the `.expect`
panic on a missing value is modelled by `none`), performs `swap_remove` on a
fresh clone of the ORIGINAL list, and then discards that clone.  Nothing is
accumulated across iterations. -/
def without_many_loop (list : List T) : List T → Option Unit
  | [] => some ()
  | value :: rest =>
    if _h : value ∈ list then
      -- `let mut new = list.clone(); new.swap_remove(position);` —
      -- this inner `new` shadows the outer one and is dropped here.
      let _discarded := swapRemove list (list.indexOf value)
      without_many_loop list rest
    else
      none

/-- Mirror of `Allowed::without_many`.  In the allow-list arm the outer
`new` is initialised to a clone of the list before the loop and is returned
unchanged afterwards (the loop only writes to its own shadowed clone); in the
forbid-list arm the values are appended. -/
def without_many (a : Allowed T) (values : List T) : Option (Allowed T) :=
  match a with
  | Allowed.AllowList list =>
    -- let new = list.clone();
    (without_many_loop list values).map (fun _ => Allowed.AllowList list)
  | Allowed.ForbidList list =>
    some (Allowed.ForbidList (list ++ values))

end Allowed

/-- Model of the world collaborator (`bevy_ecs::World`) as consumed by this
module: typed resource slots, the `TypeId → ComponentId` registries for
resources and components, by-id slots carrying a value and a changed flag,
and the set of live entities. -/
structure World where
  resources : List (TypeId × Value)
  resourceIds : List (TypeId × ComponentId)
  componentIds : List (TypeId × ComponentId)
  resourcesById : List (ComponentId × (Value × Bool))
  componentsById : List ((Entity × ComponentId) × (Value × Bool))
  entities : List Entity
deriving DecidableEq

/-- Association-list lookup used for all world and registry maps. -/
def lookup {α β : Type} [DecidableEq α] (l : List (α × β)) (key : α) : Option β :=
  (l.find? (fun p => decide (p.1 = key))).map (fun p => p.2)

/-- Model of a type registration in the `TypeRegistry` collaborator: the
registration's own recorded type id and whether it carries `ReflectFromPtr`
type data. -/
structure Registration where
  typeId : TypeId
  hasReflectFromPtr : Bool
deriving DecidableEq

abbrev TypeRegistry := List (TypeId × Registration)

/-- Model of `MutUntyped`: the slot's value, its changed flag, and the
deferred set-changed action as a world transformer. -/
structure MutUntyped where
  value : Value
  changed : Bool
  setChanged : World → World

/-- Marks the by-id slot `id` as changed. -/
def markResourceChanged (l : List (ComponentId × (Value × Bool))) (id : ComponentId) :
    List (ComponentId × (Value × Bool)) :=
  l.map (fun e => if e.1 = id then (e.1, (e.2.1, true)) else e)

/-- Marks the by-id component slot `(entity, id)` as changed. -/
def markComponentChanged (l : List ((Entity × ComponentId) × (Value × Bool)))
    (key : Entity × ComponentId) : List ((Entity × ComponentId) × (Value × Bool)) :=
  l.map (fun e => if e.1 = key then (e.1, (e.2.1, true)) else e)

/-- Model of `World::get_resource_mut_by_id`. -/
def World.get_resource_mut_by_id (w : World) (id : ComponentId) : Option MutUntyped :=
  (lookup w.resourcesById id).map (fun vc =>
    { value := vc.1, changed := vc.2,
      setChanged := fun w' => { w' with resourcesById := markResourceChanged w'.resourcesById id } })

/-- Model of `World::get_mut_by_id`. -/
def World.get_mut_by_id (w : World) (entity : Entity) (id : ComponentId) : Option MutUntyped :=
  (lookup w.componentsById (entity, id)).map (fun vc =>
    { value := vc.1, changed := vc.2,
      setChanged := fun w' =>
        { w' with componentsById := markComponentChanged w'.componentsById (entity, id) } })

/-- Mirror of `fn mut_untyped_to_reflect`: registry lookup
(`NoTypeRegistration` on a missing entry), `ReflectFromPtr` type-data lookup
(`NoTypeData` when absent), then the defensive `assert_eq!` that the
registration's recorded type id matches the requested one (its panic is
modelled by the outer `none`), and finally the reflect value together with the
deferred set-changed action. -/
def mut_untyped_to_reflect (value : MutUntyped) (type_registry : TypeRegistry)
    (type_id : TypeId) : Option (Except Error (Value × (World → World))) :=
  match lookup type_registry type_id with
  | none => some (Except.error (Error.NoTypeRegistration type_id))
  | some registration =>
    if registration.hasReflectFromPtr = false then
      some (Except.error (Error.NoTypeData type_id "ReflectFromPtr"))
    else if registration.typeId ≠ type_id then
      none
    else
      some (Except.ok (value.value, value.setChanged))

/-- Mirror of `struct RestrictedWorldView`: a world handle plus a resource
capability set and a component capability set. -/
structure RestrictedWorldView where
  world : World
  resources : Allowed TypeId
  components : Allowed EntityComponent
deriving DecidableEq

namespace RestrictedWorldView

/-- Mirror of `RestrictedWorldView::new`: permission to access everything. -/
def new (world : World) : RestrictedWorldView :=
  { world := world, resources := Allowed.everything, components := Allowed.everything }

/-- Mirror of `RestrictedWorldView::resources_components`. -/
def resources_components (world : World) : RestrictedWorldView × RestrictedWorldView :=
  ({ world := world, resources := Allowed.everything, components := Allowed.nothing },
   { world := world, resources := Allowed.nothing, components := Allowed.everything })

/-- Mirror of `RestrictedWorldView::allows_access_to_resource`. -/
def allows_access_to_resource (v : RestrictedWorldView) (type_id : TypeId) : Bool :=
  v.resources.allows_access_to type_id

/-- Mirror of `RestrictedWorldView::allows_access_to_component`. -/
def allows_access_to_component (v : RestrictedWorldView) (component : EntityComponent) : Bool :=
  v.components.allows_access_to component

/-- Mirror of `RestrictedWorldView::split_off_resource`.  The `assert!` on
the access precondition is modelled by `none`; the child gets just the
resource, the rest keeps the parent's capabilities minus the resource. -/
def split_off_resource (v : RestrictedWorldView) (resource : TypeId) :
    Option (RestrictedWorldView × RestrictedWorldView) :=
  if v.allows_access_to_resource resource = true then
    (v.resources.without resource).map (fun rest_resources =>
      ({ world := v.world, resources := Allowed.allow_just resource,
         components := Allowed.nothing },
       { world := v.world, resources := rest_resources, components := v.components }))
  else
    none

/-- Mirror of `RestrictedWorldView::split_off_component`. -/
def split_off_component (v : RestrictedWorldView) (component : EntityComponent) :
    Option (RestrictedWorldView × RestrictedWorldView) :=
  if v.allows_access_to_component component = true then
    (v.components.without component).map (fun rest_components =>
      ({ world := v.world, resources := Allowed.nothing,
         components := Allowed.allow_just component },
       { world := v.world, resources := v.resources, components := rest_components }))
  else
    none

/-- Mirror of `RestrictedWorldView::split_off_components`: first the loop of
`assert!`s over every requested component (all preconditions checked before
anything else), then the child receives an allow-list of the components and
the rest receives `without_many` of the parent's component set. -/
def split_off_components (v : RestrictedWorldView) (components : List EntityComponent) :
    Option (RestrictedWorldView × RestrictedWorldView) :=
  if components.all (fun c => v.allows_access_to_component c) then
    (v.components.without_many components).map (fun rest_components =>
      ({ world := v.world, resources := Allowed.nothing,
         components := Allowed.allow components },
       { world := v.world, resources := v.resources, components := rest_components }))
  else
    none

/-- Mirror of `RestrictedWorldView::contains_entity` (pure metadata query,
no capability check). -/
def contains_entity (v : RestrictedWorldView) (entity : Entity) :
    Bool × RestrictedWorldView :=
  (v.world.entities.contains entity, v)

/-- Mirror of the private `RestrictedWorldView::get_resource_unchecked_mut`:
checks the resource capability, then fetches the typed slot from the world. -/
def get_resource_unchecked_mut (v : RestrictedWorldView) (type_id : TypeId) :
    Except Error Value :=
  if v.allows_access_to_resource type_id = true then
    match lookup v.world.resources type_id with
    | none => Except.error (Error.ResourceDoesNotExist type_id)
    | some value => Except.ok value
  else
    Except.error (Error.NoAccessToResource type_id)

/-- Mirror of `RestrictedWorldView::get_resource_mut` (takes `&mut self`,
delegates to the checked-capability fetch). -/
def get_resource_mut (v : RestrictedWorldView) (type_id : TypeId) :
    Except Error Value × RestrictedWorldView :=
  (v.get_resource_unchecked_mut type_id, v)

/-- Mirror of `RestrictedWorldView::get_two_resources_mut`: the
`assert_ne!` on the two type ids is modelled by `none`; otherwise both
results come from the one borrow of the view. -/
def get_two_resources_mut (v : RestrictedWorldView) (t1 t2 : TypeId) :
    Option ((Except Error Value × Except Error Value) × RestrictedWorldView) :=
  if t1 = t2 then
    none
  else
    some ((v.get_resource_unchecked_mut t1, v.get_resource_unchecked_mut t2), v)

/-- Mirror of `RestrictedWorldView::get_resource_reflect_mut_by_id`:
capability check, resource-id lookup, by-id fetch, then the dynamic-value
bridge. -/
def get_resource_reflect_mut_by_id (v : RestrictedWorldView) (type_id : TypeId)
    (type_registry : TypeRegistry) :
    Option (Except Error (Value × (World → World)) × RestrictedWorldView) :=
  if v.allows_access_to_resource type_id = true then
    match lookup v.world.resourceIds type_id with
    | none => some (Except.error (Error.ResourceDoesNotExist type_id), v)
    | some component_id =>
      match v.world.get_resource_mut_by_id component_id with
      | none => some (Except.error (Error.ResourceDoesNotExist type_id), v)
      | some value =>
        (mut_untyped_to_reflect value type_registry type_id).map (fun r => (r, v))
  else
    some (Except.error (Error.NoAccessToResource type_id), v)

/-- Mirror of `RestrictedWorldView::get_entity_component_reflect`:
capability check, component-id lookup, by-id fetch (recording whether the
slot was already changed), then the dynamic-value bridge. -/
def get_entity_component_reflect (v : RestrictedWorldView) (entity : Entity)
    (component : TypeId) (type_registry : TypeRegistry) :
    Option (Except Error (Value × Bool × (World → World)) × RestrictedWorldView) :=
  if v.allows_access_to_component (entity, component) = true then
    match lookup v.world.componentIds component with
    | none => some (Except.error (Error.NoComponentId component), v)
    | some component_id =>
      match v.world.get_mut_by_id entity component_id with
      | none => some (Except.error (Error.ComponentDoesNotExist (entity, component)), v)
      | some value =>
        let changed := value.changed
        (mut_untyped_to_reflect value type_registry component).map (fun r =>
          (r.map (fun p => (p.1, changed, p.2)), v))
  else
    some (Except.error (Error.NoAccessToComponent (entity, component)), v)

/-- Mirror of `RestrictedWorldView::get_entity_component_reflect_unchecked`
(takes `&self`; identical capability check and lookups, no changed flag). -/
def get_entity_component_reflect_unchecked (v : RestrictedWorldView) (entity : Entity)
    (component : TypeId) (type_registry : TypeRegistry) :
    Option (Except Error (Value × (World → World)) × RestrictedWorldView) :=
  if v.allows_access_to_component (entity, component) = true then
    match lookup v.world.componentIds component with
    | none => some (Except.error (Error.NoComponentId component), v)
    | some component_id =>
      match v.world.get_mut_by_id entity component_id with
      | none => some (Except.error (Error.ComponentDoesNotExist (entity, component)), v)
      | some value =>
        (mut_untyped_to_reflect value type_registry component).map (fun r => (r, v))
  else
    some (Except.error (Error.NoAccessToComponent (entity, component)), v)

end RestrictedWorldView

def W0 : World := ⟨[], [], [], [], [], []⟩

def W4 : World := ⟨[(7, 42)], [], [], [], [], []⟩

def V4 : RestrictedWorldView := RestrictedWorldView.new W4

/-- Conclusion of the split postcondition for a resource key: child contains
the key, remainder does not, all other keys keep their membership. -/
def ResourceSplitSpec (v : RestrictedWorldView) (k : TypeId) : Prop :=
  ∃ child rest, v.split_off_resource k = some (child, rest) ∧
    child.allows_access_to_resource k = true ∧
    rest.allows_access_to_resource k = false ∧
    (∀ t, t ≠ k → rest.allows_access_to_resource t = v.allows_access_to_resource t) ∧
    (∀ ec, rest.allows_access_to_component ec = v.allows_access_to_component ec)

/-- Conclusion of the split postcondition for a component key. -/
def ComponentSplitSpec (v : RestrictedWorldView) (c : EntityComponent) : Prop :=
  ∃ child rest, v.split_off_component c = some (child, rest) ∧
    child.allows_access_to_component c = true ∧
    rest.allows_access_to_component c = false ∧
    (∀ ec, ec ≠ c → rest.allows_access_to_component ec = v.allows_access_to_component ec) ∧
    (∀ t, rest.allows_access_to_resource t = v.allows_access_to_resource t)

/-- The requested-components conclusion of a successful multi-key split. -/
def ComponentsSplitOk (v : RestrictedWorldView) (cs : List EntityComponent) : Prop :=
  ∃ child rest, v.split_off_components cs = some (child, rest) ∧
    child.components = Allowed.allow cs ∧
    child.resources = Allowed.nothing ∧
    rest.resources = v.resources ∧
    ∀ c ∈ cs, child.allows_access_to_component c = true

/-- Splitting off two resources in sequence, keeping the final remainder. -/
def SplitTwiceRemainder (v : RestrictedWorldView) (k1 k2 : TypeId) :
    Option RestrictedWorldView :=
  ((v.split_off_resource k1).bind (fun p => p.2.split_off_resource k2)).map (fun p => p.2)

/-! Helper lemmas about `swapRemove` and `Allowed.without`. -/

theorem swapRemove_perm_eraseIdx {T : Type} (l : List T) (i : Nat) (h : i < l.length) :
    List.Perm (swapRemove l i) (l.eraseIdx i) := by
  have hne : l ≠ [] := by
    intro h0
    subst h0
    simp at h
  have hlast : l.getLast? = some (l.getLast hne) := List.getLast?_eq_getLast l hne
  simp only [swapRemove, hlast]
  rw [List.set_eq_take_cons_drop _ h, List.eraseIdx_eq_take_drop_succ]
  by_cases hi : i + 1 < l.length
  · have hdlen : (l.drop (i + 1)).length = l.length - (i + 1) := List.length_drop _ _
    have hd : l.drop (i + 1) ≠ [] := by
      intro hd0
      rw [hd0] at hdlen
      simp at hdlen
      omega
    have hsplit : l.take (i + 1) ++ l.drop (i + 1) = l := List.take_append_drop _ _
    have hglast : (l.drop (i + 1)).getLast? = some (l.getLast hne) := by
      have h2 := List.getLast?_append_of_ne_nil (l.take (i + 1)) hd
      rw [hsplit] at h2
      rw [← h2, hlast]
    have hdecomp : (l.drop (i + 1)).dropLast ++ [l.getLast hne] = l.drop (i + 1) :=
      List.dropLast_append_getLast? _ hglast
    rw [List.dropLast_append_of_ne_nil (l.take i) (List.cons_ne_nil _ _)]
    rw [List.dropLast_cons_of_ne_nil hd]
    refine List.Perm.append_left _ ?_
    conv_rhs => rw [← hdecomp]
    exact (List.perm_append_singleton _ _).symm
  · have hlen : l.length ≤ i + 1 := Nat.le_of_not_lt hi
    have hdrop : l.drop (i + 1) = [] := List.drop_eq_nil_of_le hlen
    rw [hdrop]
    simp

theorem eraseIdx_indexOf_eq_erase {T : Type} [DecidableEq T] (l : List T) (k : T) :
    l.eraseIdx (l.indexOf k) = l.erase k := by
  induction l with
  | nil => rfl
  | cons a l ih =>
    by_cases hak : a = k
    · subst hak
      simp [List.indexOf_cons_self, List.erase_cons_head]
    · rw [List.indexOf_cons_ne _ hak]
      rw [List.erase_cons_tail (by simp [hak])]
      simp [ih]

theorem without_allow_perm {T : Type} [DecidableEq T] {l : List T} {k : T} (h : k ∈ l) :
    (Allowed.AllowList l).without k
      = some (Allowed.AllowList (swapRemove l (l.indexOf k)))
    ∧ List.Perm (swapRemove l (l.indexOf k)) (l.erase k) := by
  constructor
  · simp [Allowed.without, h]
  · have hi : l.indexOf k < l.length := List.indexOf_lt_length.2 h
    exact (swapRemove_perm_eraseIdx l _ hi).trans
      (eraseIdx_indexOf_eq_erase l k ▸ List.Perm.refl _)

/-- Characterisation of `Allowed.without` on a set that contains the key: it
succeeds, the key is gone from the result provided an allow-list held it at
most once, and every other key keeps its membership. -/
theorem allows_without {T : Type} [DecidableEq T] (a : Allowed T) (k : T)
    (h : a.allows_access_to k = true)
    (h1 : ∀ l, a = Allowed.AllowList l → l.countP (fun x => decide (x = k)) ≤ 1) :
    ∃ a2, a.without k = some a2 ∧ a2.allows_access_to k = false ∧
      ∀ t, t ≠ k → a2.allows_access_to t = a.allows_access_to t := by
  cases a with
  | AllowList l =>
    have hk : k ∈ l := by simpa [Allowed.allows_access_to] using h
    obtain ⟨heq, hperm⟩ := without_allow_perm hk
    have hcount1 : l.count k ≤ 1 := h1 l rfl
    refine ⟨_, heq, ?_, ?_⟩
    · have hc : (swapRemove l (l.indexOf k)).count k = (l.erase k).count k :=
        hperm.count_eq k
      have hcpos : 0 < l.count k := List.count_pos_iff.mpr hk
      have hc0 : (swapRemove l (l.indexOf k)).count k = 0 := by
        rw [hc, List.count_erase_self]
        omega
      have hnotmem : k ∉ swapRemove l (l.indexOf k) := by
        intro hmem
        have := List.count_pos_iff.mpr hmem
        omega
      simp [Allowed.allows_access_to, hnotmem]
    · intro t ht
      have hc : (swapRemove l (l.indexOf k)).count t = (l.erase k).count t :=
        hperm.count_eq t
      have hce : (l.erase k).count t = l.count t := List.count_erase_of_ne ht l
      have hmemiff : t ∈ swapRemove l (l.indexOf k) ↔ t ∈ l := by
        rw [← List.count_pos_iff, ← List.count_pos_iff, hc, hce]
      simp [Allowed.allows_access_to, hmemiff]
  | ForbidList l =>
    have hk : k ∉ l := by simpa [Allowed.allows_access_to] using h
    refine ⟨Allowed.ForbidList (l ++ [k]), rfl, ?_, ?_⟩
    · simp [Allowed.allows_access_to]
    · intro t ht
      simp [Allowed.allows_access_to, ht]

/-- Claim C6: the membership test of a capability set: an allow-list contains
exactly the keys of its sequence, a forbid-list exactly the keys not in its
sequence; `everything` (forbid-list of the empty sequence) contains every key
and `nothing` (allow-list of the empty sequence) contains none. -/
theorem C6_membership (l : List TypeId) (k : TypeId) :
    ((Allowed.AllowList l).allows_access_to k = true ↔ k ∈ l) ∧
    ((Allowed.ForbidList l).allows_access_to k = true ↔ k ∉ l) ∧
    (Allowed.everything : Allowed TypeId).allows_access_to k = true ∧
    (Allowed.nothing : Allowed TypeId).allows_access_to k = false := by
  refine ⟨?_, ?_, ?_, ?_⟩ <;>
    simp [Allowed.allows_access_to, Allowed.everything, Allowed.nothing]

theorem C6_witness :
    ((Allowed.AllowList [7]).allows_access_to 7 = true ↔ (7 : TypeId) ∈ [7]) ∧
    ((Allowed.ForbidList [7]).allows_access_to 7 = true ↔ (7 : TypeId) ∉ [7]) ∧
    (Allowed.everything : Allowed TypeId).allows_access_to 7 = true ∧
    (Allowed.nothing : Allowed TypeId).allows_access_to 7 = false :=
  C6_membership [7] 7

/-- Claim C1, evaluated at a failing input: `without_many` on the allow-list
holding keys 0 and 1, asked to remove both, returns the allow-list unchanged —
the loop performs each `swap_remove` on a shadowed clone that it then drops,
so both keys are still contained afterwards. -/
theorem C1_without_many_allowlist_is_noop :
    (Allowed.AllowList [0, 1] : Allowed TypeId).without_many [0, 1]
        = some (Allowed.AllowList [0, 1]) ∧
    ((Allowed.AllowList [0, 1] : Allowed TypeId).without_many [0, 1]).map
        (fun a => (a.allows_access_to 0, a.allows_access_to 1)) = some (true, true) := by
  decide

/-- Claim C9: an allow-list sequence may contain a key twice (`allow` does not
reject duplicates), `without` removes exactly one occurrence, and when the key
occurred at least twice the resulting set still contains it. -/
theorem C9_duplicate_allowlist_without (l : List TypeId) (k : TypeId)
    (h2 : 2 ≤ l.count k) :
    Allowed.allow l = Allowed.AllowList l ∧
    ∃ l2, (Allowed.AllowList l).without k = some (Allowed.AllowList l2) ∧
      l2.count k = l.count k - 1 ∧
      (Allowed.AllowList l2).allows_access_to k = true := by
  have hk : k ∈ l := List.count_pos_iff.mp (by omega)
  obtain ⟨heq, hperm⟩ := without_allow_perm hk
  refine ⟨rfl, _, heq, ?_, ?_⟩
  · rw [hperm.count_eq k, List.count_erase_self]
  · have hc : (swapRemove l (l.indexOf k)).count k = l.count k - 1 := by
      rw [hperm.count_eq k, List.count_erase_self]
    have hmem : k ∈ swapRemove l (l.indexOf k) := by
      apply List.count_pos_iff.mp
      omega
    simp [Allowed.allows_access_to, hmem]

theorem C9_witness :
    2 ≤ List.count 5 [5, 5] ∧
    (Allowed.allow [5, 5] = Allowed.AllowList [5, 5] ∧
      ∃ l2, (Allowed.AllowList ([5, 5] : List TypeId)).without 5
          = some (Allowed.AllowList l2) ∧
        l2.count 5 = List.count 5 [5, 5] - 1 ∧
        (Allowed.AllowList l2).allows_access_to 5 = true) :=
  ⟨by decide, C9_duplicate_allowlist_without [5, 5] 5 (by decide)⟩

/-- Claim C2 counterexample: a view whose component allow-list holds the key
(0, 5) twice — reachable by `split_off_components` with a duplicated key
list — does contain the key, yet after `split_off_component` the remainder
still contains it, refuting the claim's `rest.contains(k) == false` clause. -/
theorem C2_counterexample :
    (((RestrictedWorldView.new W0).split_off_components [(0, 5), (0, 5)]).bind (fun p =>
        p.1.split_off_component (0, 5))).map (fun p =>
          (p.1.allows_access_to_component (0, 5), p.2.allows_access_to_component (0, 5))) =
      some (true, true) := by
  decide

/-- Claim C2 (amended): for every view whose capability set contains key k —
at most once, in the allow-list case; forbid-lists and the views built by the
single-key splitting operations always satisfy this — splitting k off yields
(child, rest) with child containing k, rest not containing k, and every other
key's membership in rest unchanged from the view; this holds for resource keys
and component keys alike. -/
theorem C2_split_preserves_and_removes (v : RestrictedWorldView) (k : TypeId)
    (c : EntityComponent)
    (hr : v.allows_access_to_resource k = true)
    (hr1 : ∀ l, v.resources = Allowed.AllowList l → l.countP (fun x => decide (x = k)) ≤ 1)
    (hc : v.allows_access_to_component c = true)
    (hc1 : ∀ l, v.components = Allowed.AllowList l → l.countP (fun x => decide (x = c)) ≤ 1) :
    ResourceSplitSpec v k ∧ ComponentSplitSpec v c := by
  obtain ⟨a2, heq, hnot, hpres⟩ := allows_without v.resources k hr hr1
  obtain ⟨b2, heqc, hnotc, hpresc⟩ := allows_without v.components c hc hc1
  constructor
  · refine ⟨⟨v.world, Allowed.allow_just k, Allowed.nothing⟩,
      ⟨v.world, a2, v.components⟩, ?_, ?_, ?_, ?_, ?_⟩
    · simp [RestrictedWorldView.split_off_resource, hr, heq]
    · simp [RestrictedWorldView.allows_access_to_resource, Allowed.allow_just,
        Allowed.allows_access_to]
    · exact hnot
    · intro t ht
      exact hpres t ht
    · intro ec
      rfl
  · refine ⟨⟨v.world, Allowed.nothing, Allowed.allow_just c⟩,
      ⟨v.world, v.resources, b2⟩, ?_, ?_, ?_, ?_, ?_⟩
    · simp [RestrictedWorldView.split_off_component, hc, heqc]
    · simp [RestrictedWorldView.allows_access_to_component, Allowed.allow_just,
        Allowed.allows_access_to]
    · exact hnotc
    · intro ec hec
      exact hpresc ec hec
    · intro t
      rfl

theorem C2_witness :
    ResourceSplitSpec (RestrictedWorldView.new W0) 3 ∧
    ComponentSplitSpec (RestrictedWorldView.new W0) (0, 5) :=
  C2_split_preserves_and_removes (RestrictedWorldView.new W0) 3 (0, 5) (by decide)
    (fun l h => by simp [RestrictedWorldView.new, Allowed.everything] at h) (by decide)
    (fun l h => by simp [RestrictedWorldView.new, Allowed.everything] at h)

/-- The loop of `without_many` succeeds when every requested value is present
in the original list. -/
theorem without_many_loop_some {T : Type} [DecidableEq T] (list : List T)
    (values : List T) (h : ∀ v ∈ values, v ∈ list) :
    Allowed.without_many_loop list values = some () := by
  induction values with
  | nil => rfl
  | cons v vs ih =>
    have hv : v ∈ list := h v (by simp)
    simp only [Allowed.without_many_loop, dif_pos hv]
    exact ih (fun x hx => h x (by simp [hx]))

/-- Claim C3: the multi-key split checks every precondition first: if any
requested component is not contained in the view's component capability set
the operation aborts (fatally) with no partial result, and otherwise it
succeeds with the child holding an allow-list of all requested keys. -/
theorem C3_split_off_components_all_or_nothing (v : RestrictedWorldView)
    (cs : List EntityComponent) :
    ((∀ c ∈ cs, v.allows_access_to_component c = true) → ComponentsSplitOk v cs) ∧
    ((∃ c ∈ cs, v.allows_access_to_component c = false) →
      v.split_off_components cs = none) := by
  constructor
  · intro hall
    have hguard : cs.all (fun c => v.allows_access_to_component c) = true := by
      rw [List.all_eq_true]
      exact hall
    have hsome : ∃ r, v.components.without_many cs = some r := by
      cases hcomp : v.components with
      | AllowList l =>
        have hmem : ∀ c ∈ cs, c ∈ l := by
          intro c hc
          have := hall c hc
          simpa [RestrictedWorldView.allows_access_to_component, hcomp,
            Allowed.allows_access_to] using this
        refine ⟨Allowed.AllowList l, ?_⟩
        simp [Allowed.without_many, without_many_loop_some l cs hmem]
      | ForbidList l => exact ⟨Allowed.ForbidList (l ++ cs), rfl⟩
    obtain ⟨r, hr⟩ := hsome
    refine ⟨⟨v.world, Allowed.nothing, Allowed.allow cs⟩, ⟨v.world, v.resources, r⟩,
      ?_, rfl, rfl, rfl, ?_⟩
    · simp [RestrictedWorldView.split_off_components, hguard, hr]
    · intro c hc
      simp [RestrictedWorldView.allows_access_to_component, Allowed.allow,
        Allowed.allows_access_to, hc]
  · intro hex
    obtain ⟨c, hc, hfalse⟩ := hex
    have hguard : cs.all (fun c => v.allows_access_to_component c) = false := by
      rw [List.all_eq_false]
      exact ⟨c, hc, by simp [hfalse]⟩
    simp [RestrictedWorldView.split_off_components, hguard]

theorem C3_witness :
    (∀ c ∈ [((0 : Entity), (5 : TypeId)), (1, 6)],
      (RestrictedWorldView.new W0).allows_access_to_component c = true) ∧
    ComponentsSplitOk (RestrictedWorldView.new W0) [(0, 5), (1, 6)] ∧
    ((RestrictedWorldView.resources_components W0).1.split_off_components [(0, 5)] = none) :=
  ⟨by decide,
   (C3_split_off_components_all_or_nothing (RestrictedWorldView.new W0)
      [(0, 5), (1, 6)]).1 (by decide),
   (C3_split_off_components_all_or_nothing (RestrictedWorldView.resources_components W0).1
      [(0, 5)]).2 ⟨(0, 5), by simp, by decide⟩⟩

/-- Claim C4: `get_resource_mut` returns `NoAccessToResource` exactly when the
resource capability set does not contain the type id, `ResourceDoesNotExist`
exactly when the capability is present but the world has no slot, and the
stored value otherwise. -/
theorem C4_get_resource_mut_error_taxonomy (v : RestrictedWorldView) (t : TypeId) :
    ((v.get_resource_mut t).1 = Except.error (Error.NoAccessToResource t) ↔
      v.allows_access_to_resource t = false) ∧
    ((v.get_resource_mut t).1 = Except.error (Error.ResourceDoesNotExist t) ↔
      v.allows_access_to_resource t = true ∧ lookup v.world.resources t = none) ∧
    (∀ x, v.allows_access_to_resource t = true → lookup v.world.resources t = some x →
      (v.get_resource_mut t).1 = Except.ok x) := by
  unfold RestrictedWorldView.get_resource_mut RestrictedWorldView.get_resource_unchecked_mut
  by_cases h : v.allows_access_to_resource t = true
  · cases hl : lookup v.world.resources t with
    | none => simp [h, hl]
    | some x => simp [h, hl]
  · have h' : v.allows_access_to_resource t = false := by
      simpa using h
    simp [h', h]

theorem C4_witness :
    ((V4.get_resource_mut 7).1 = Except.error (Error.NoAccessToResource 7) ↔
      V4.allows_access_to_resource 7 = false) ∧
    V4.allows_access_to_resource 7 = true ∧
    lookup V4.world.resources 7 = some 42 ∧
    (V4.get_resource_mut 7).1 = Except.ok 42 :=
  ⟨(C4_get_resource_mut_error_taxonomy V4 7).1, by decide, by decide,
   (C4_get_resource_mut_error_taxonomy V4 7).2.2 42 (by decide) (by decide)⟩

/-- Claim C5: `get_two_resources_mut` aborts fatally when the two type ids
coincide and produces no reference; with distinct type ids the fatal branch is
not taken and both results come from the one borrow of the view. -/
theorem C5_get_two_resources_mut_alias_guard (v : RestrictedWorldView) (t1 t2 : TypeId) :
    (t1 = t2 → v.get_two_resources_mut t1 t2 = none) ∧
    (t1 ≠ t2 → v.get_two_resources_mut t1 t2 =
      some ((v.get_resource_unchecked_mut t1, v.get_resource_unchecked_mut t2), v)) := by
  unfold RestrictedWorldView.get_two_resources_mut
  constructor
  · intro h
    simp [h]
  · intro h
    simp [h]

theorem C5_witness :
    V4.get_two_resources_mut 7 7 = none ∧
    V4.get_two_resources_mut 7 8 =
      some ((V4.get_resource_unchecked_mut 7, V4.get_resource_unchecked_mut 8), V4) :=
  ⟨(C5_get_two_resources_mut_alias_guard V4 7 7).1 rfl,
   (C5_get_two_resources_mut_alias_guard V4 7 8).2 (by decide)⟩

/-- Claim C8: `contains_entity` reads only the world's entity metadata — two
views over the same world answer identically whatever their resource and
component capability sets. -/
theorem C8_contains_entity_capability_independent (w : World)
    (r1 r2 : Allowed TypeId) (c1 c2 : Allowed EntityComponent) (e : Entity) :
    (RestrictedWorldView.contains_entity ⟨w, r1, c1⟩ e).1 =
      (RestrictedWorldView.contains_entity ⟨w, r2, c2⟩ e).1 :=
  rfl

/-- Mapping the capability fields out of an accessor result whose view
component is the unchanged input view. -/
theorem map_snd_const {α β : Type} (o : Option α) (f : α → β) (v : RestrictedWorldView) :
    (o.map (fun r => (f r, v))).map (fun p => (p.2.resources, p.2.components)) =
      (o.map (fun r => (f r, v))).map (fun _ => (v.resources, v.components)) := by
  cases o <;> rfl

/-- Claim C10: every accessor leaves the view's capability sets unchanged,
whether it succeeds or returns an error: the view each accessor hands back has
exactly the input view's resource and component capability sets. -/
theorem C10_accessors_preserve_capabilities (v : RestrictedWorldView) (e : Entity)
    (t t1 t2 : TypeId) (reg : TypeRegistry) :
    (v.contains_entity e).2 = v ∧
    ((v.get_resource_mut t).2.resources = v.resources ∧
      (v.get_resource_mut t).2.components = v.components) ∧
    ((v.get_two_resources_mut t1 t2).map (fun p => (p.2.resources, p.2.components)) =
      (v.get_two_resources_mut t1 t2).map (fun _ => (v.resources, v.components))) ∧
    ((v.get_resource_reflect_mut_by_id t reg).map (fun p => (p.2.resources, p.2.components)) =
      (v.get_resource_reflect_mut_by_id t reg).map (fun _ => (v.resources, v.components))) ∧
    ((v.get_entity_component_reflect e t reg).map (fun p => (p.2.resources, p.2.components)) =
      (v.get_entity_component_reflect e t reg).map (fun _ => (v.resources, v.components))) ∧
    ((v.get_entity_component_reflect_unchecked e t reg).map
        (fun p => (p.2.resources, p.2.components)) =
      (v.get_entity_component_reflect_unchecked e t reg).map
        (fun _ => (v.resources, v.components))) := by
  refine ⟨rfl, ⟨rfl, rfl⟩, ?_, ?_, ?_, ?_⟩
  · unfold RestrictedWorldView.get_two_resources_mut
    by_cases h : t1 = t2 <;> simp [h]
  · unfold RestrictedWorldView.get_resource_reflect_mut_by_id
    split
    · split
      · rfl
      · split
        · rfl
        · exact map_snd_const _ _ _
    · rfl
  · unfold RestrictedWorldView.get_entity_component_reflect
    split
    · split
      · rfl
      · split
        · rfl
        · exact map_snd_const _ _ _
    · rfl
  · unfold RestrictedWorldView.get_entity_component_reflect_unchecked
    split
    · split
      · rfl
      · split
        · rfl
        · exact map_snd_const _ _ _
    · rfl

/-- Removing two distinct contained keys from a capability set succeeds in
either order, each intermediate set still contains the other key, and the two
final sets agree on membership for every key. -/
theorem without_without {T : Type} [DecidableEq T] (a : Allowed T) (k1 k2 : T)
    (h1 : a.allows_access_to k1 = true) (h2 : a.allows_access_to k2 = true)
    (hne : k1 ≠ k2) :
    ∃ a1 a12 a2 a21,
      a.without k1 = some a1 ∧ a1.allows_access_to k2 = true ∧
        a1.without k2 = some a12 ∧
      a.without k2 = some a2 ∧ a2.allows_access_to k1 = true ∧
        a2.without k1 = some a21 ∧
      ∀ t, a12.allows_access_to t = a21.allows_access_to t := by
  cases a with
  | AllowList l =>
    have hk1 : k1 ∈ l := by simpa [Allowed.allows_access_to] using h1
    have hk2 : k2 ∈ l := by simpa [Allowed.allows_access_to] using h2
    obtain ⟨heq1, hperm1⟩ := without_allow_perm hk1
    obtain ⟨heq2, hperm2⟩ := without_allow_perm hk2
    have hk2' : k2 ∈ swapRemove l (l.indexOf k1) := by
      rw [hperm1.mem_iff]
      exact (List.mem_erase_of_ne (Ne.symm hne)).mpr hk2
    have hk1' : k1 ∈ swapRemove l (l.indexOf k2) := by
      rw [hperm2.mem_iff]
      exact (List.mem_erase_of_ne hne).mpr hk1
    obtain ⟨heq12, hperm12⟩ := without_allow_perm hk2'
    obtain ⟨heq21, hperm21⟩ := without_allow_perm hk1'
    refine ⟨_, _, _, _, heq1, by simp [Allowed.allows_access_to, hk2'], heq12,
      heq2, by simp [Allowed.allows_access_to, hk1'], heq21, ?_⟩
    intro t
    have h12 : List.Perm (swapRemove (swapRemove l (l.indexOf k1))
        ((swapRemove l (l.indexOf k1)).indexOf k2)) ((l.erase k1).erase k2) :=
      hperm12.trans (hperm1.erase k2)
    have h21 : List.Perm (swapRemove (swapRemove l (l.indexOf k2))
        ((swapRemove l (l.indexOf k2)).indexOf k1)) ((l.erase k2).erase k1) :=
      hperm21.trans (hperm2.erase k1)
    have hmem : ∀ x, x ∈ swapRemove (swapRemove l (l.indexOf k1))
        ((swapRemove l (l.indexOf k1)).indexOf k2) ↔
        x ∈ swapRemove (swapRemove l (l.indexOf k2))
        ((swapRemove l (l.indexOf k2)).indexOf k1) := by
      intro x
      rw [h12.mem_iff, h21.mem_iff, List.erase_comm]
    simp [Allowed.allows_access_to, hmem t]
  | ForbidList l =>
    have hk1 : k1 ∉ l := by simpa [Allowed.allows_access_to] using h1
    have hk2 : k2 ∉ l := by simpa [Allowed.allows_access_to] using h2
    refine ⟨Allowed.ForbidList (l ++ [k1]), Allowed.ForbidList ((l ++ [k1]) ++ [k2]),
      Allowed.ForbidList (l ++ [k2]), Allowed.ForbidList ((l ++ [k2]) ++ [k1]),
      rfl, ?_, rfl, rfl, ?_, rfl, ?_⟩
    · simp [Allowed.allows_access_to, hk2, Ne.symm hne]
    · simp [Allowed.allows_access_to, hk1, hne]
    · intro t
      have hiff : t ∈ (l ++ [k1]) ++ [k2] ↔ t ∈ (l ++ [k2]) ++ [k1] := by
        simp only [List.mem_append, List.mem_singleton]
        tauto
      simp only [Allowed.allows_access_to]
      rw [decide_eq_decide.mpr hiff]

/-- Claim C7: for a view containing two distinct resource keys, splitting off
k1 and then k2 from the successive remainders gives a final remainder with the
same membership function (on resource and component keys) as splitting off k2
and then k1. -/
theorem C7_split_order_independent (v : RestrictedWorldView) (k1 k2 : TypeId)
    (h1 : v.allows_access_to_resource k1 = true)
    (h2 : v.allows_access_to_resource k2 = true)
    (hne : k1 ≠ k2) :
    ∃ r12 r21, SplitTwiceRemainder v k1 k2 = some r12 ∧
      SplitTwiceRemainder v k2 k1 = some r21 ∧
      (∀ t, r12.allows_access_to_resource t = r21.allows_access_to_resource t) ∧
      (∀ ec, r12.allows_access_to_component ec = r21.allows_access_to_component ec) := by
  obtain ⟨a1, a12, a2, a21, hw1, ha1, hw12, hw2, ha2, hw21, hmem⟩ :=
    without_without v.resources k1 k2 h1 h2 hne
  refine ⟨⟨v.world, a12, v.components⟩, ⟨v.world, a21, v.components⟩, ?_, ?_, ?_, ?_⟩
  · have h1' : v.resources.allows_access_to k1 = true := h1
    simp [SplitTwiceRemainder, RestrictedWorldView.split_off_resource, h1', hw1,
      RestrictedWorldView.allows_access_to_resource, ha1, hw12]
  · have h2' : v.resources.allows_access_to k2 = true := h2
    simp [SplitTwiceRemainder, RestrictedWorldView.split_off_resource, h2', hw2,
      RestrictedWorldView.allows_access_to_resource, ha2, hw21]
  · intro t
    exact hmem t
  · intro ec
    rfl

theorem C7_witness :
    (RestrictedWorldView.new W0).allows_access_to_resource 3 = true ∧
    (RestrictedWorldView.new W0).allows_access_to_resource 4 = true ∧
    ∃ r12 r21, SplitTwiceRemainder (RestrictedWorldView.new W0) 3 4 = some r12 ∧
      SplitTwiceRemainder (RestrictedWorldView.new W0) 4 3 = some r21 ∧
      (∀ t, r12.allows_access_to_resource t = r21.allows_access_to_resource t) ∧
      (∀ ec, r12.allows_access_to_component ec = r21.allows_access_to_component ec) :=
  ⟨by decide, by decide,
   C7_split_order_independent (RestrictedWorldView.new W0) 3 4 (by decide) (by decide)
     (by decide)⟩
